import Mathlib

/-!
# Trigon Domain Manager client (`src/App.js`)

A shallow embedding of the React component `App`: its state hooks become the
record `AppState`, every asynchronous handler becomes a function from the
responses of the wallet / registry to the ordered list of effects the handler
performs, and the state reached is obtained by replaying the state setters of
that list.
-/

namespace KotDomain

/-! ## Strings -/

/-- Number of UTF-16 code units of one character (JavaScript strings are
sequences of UTF-16 code units, and `length` counts them). -/
def utf16Units (c : Char) : Nat :=
  if c.toNat < 65536 then 1 else 2

/-- The JavaScript `length` of a string. -/
def jsLength (s : String) : Nat :=
  (s.data.map utf16Units).sum

/-- The truncated address shown in the page:
`a.slice(0, 6) + '...' + a.slice(-4)` (on the hexadecimal addresses the page
handles, code units and characters coincide). -/
def shortAddress (a : String) : String :=
  String.mk (a.data.take 6) ++ "..." ++ String.mk (a.data.drop (a.data.length - 4))

/-! ## Data model -/

/-- One element of the `mints` array built by `fetchMints`. -/
structure MintEntry where
  id : Nat
  name : String
  record : String
  owner : String
  deriving DecidableEq, Repr

/-- The seven `useState` cells of `App`. -/
structure AppState where
  currentAccount : String
  domain : String
  record : String
  network : String
  loading : Bool
  editing : Bool
  mints : List MintEntry
  deriving DecidableEq, Repr

/-- The initial values passed to `useState`. -/
def initialState : AppState :=
  { currentAccount := "", domain := "", record := "", network := "",
    loading := false, editing := false, mints := [] }

/-- The network name compared against in `useEffect` and `renderInput`. -/
def requiredNetwork : String := "Polygon Mumbai Testnet"

/-- The text of the alert raised for a too short name. -/
def shortDomainNotice : String :=
  "Domain is too short. Must be at least 3 characters long"

/-- The text of the alert raised when the register receipt is not successful. -/
def mintFailedNotice : String :=
  "Domain minting failed. Please try again."

/-! ## Effects -/

/-- What a handler can do, in the order it does it. -/
inductive Effect where
  | alert (msg : String)
  | log (msg : String)
  | setCurrentAccount (a : String)
  | setDomain (d : String)
  | setRecord (r : String)
  | setNetwork (n : String)
  | setLoading (b : Bool)
  | setEditing (b : Bool)
  | setMints (ms : List MintEntry)
  /-- `contract.register(domain, { value })` is called. -/
  | contractRegister (name : String) (value : Nat)
  /-- `tx.wait()` of the register transaction resolved with this status. -/
  | registerReceipt (status : Nat)
  /-- `contract.setRecord(domain, record)` is called. -/
  | contractSetRecord (name : String) (record : String)
  /-- `tx.wait()` of the set-record transaction resolved with this status. -/
  | setRecordReceipt (status : Nat)
  /-- `contract.getAllNames()` is called. -/
  | contractGetAllNames
  /-- `setTimeout(() => { fetchMints(); }, ms)`. -/
  | scheduleFetch (ms : Nat)
  /-- A direct, un-awaited `fetchMints()`. -/
  | startFetch
  /-- `ethereum.request({ method })` on the wallet provider. -/
  | walletRequest (method : String)
  /-- `ethereum.on('chainChanged', handleChainChanged)`. -/
  | onChainChanged
  deriving DecidableEq, Repr

/-- The effects that reach the remote registry: contract calls, waiting for a
receipt, and starting or scheduling a fetch. -/
def Effect.touchesRegistry : Effect → Bool
  | .contractRegister _ _ => true
  | .registerReceipt _ => true
  | .contractSetRecord _ _ => true
  | .setRecordReceipt _ => true
  | .contractGetAllNames => true
  | .scheduleFetch _ => true
  | .startFetch => true
  | _ => false

/-- Whether an effect is not a `contract.setRecord` call. -/
def Effect.notSetRecordCall : Effect → Bool
  | .contractSetRecord _ _ => false
  | _ => true

/-- The effect of one state setter on the state; other effects leave it alone. -/
def applyEffect (s : AppState) : Effect → AppState
  | .setCurrentAccount a => { s with currentAccount := a }
  | .setDomain d => { s with domain := d }
  | .setRecord r => { s with record := r }
  | .setNetwork n => { s with network := n }
  | .setLoading b => { s with loading := b }
  | .setEditing b => { s with editing := b }
  | .setMints ms => { s with mints := ms }
  | _ => s

/-- Replays a list of effects on a state. -/
def applyEffects (s : AppState) (es : List Effect) : AppState :=
  es.foldl applyEffect s

/-! ## The wallet and the registry, as seen by the client -/

/-- The receipt `tx.wait()` resolves to. -/
structure Receipt where
  status : Nat
  deriving DecidableEq, Repr

/-- A submitted transaction: its hash and what `tx.wait()` will give
(a receipt, or a thrown error). -/
structure Tx where
  hash : String
  wait : Except String Receipt

/-- The responses of the environment to the write handlers. -/
structure WriteEnv where
  /-- Whether `window.ethereum` is present. -/
  ethereum : Bool
  /-- Building the provider, signer and contract objects (may throw). -/
  connect : Except String Unit
  /-- The response of `contract.register(name, { value })`. -/
  register : String → Nat → Except String Tx
  /-- The response of `contract.setRecord(name, record)`. -/
  setRecord : String → String → Except String Tx

/-- The responses of the environment to `fetchMints`. The two lookups take the
position of the name in the fetched sequence as well as the name. -/
structure ReadEnv where
  ethereum : Bool
  connect : Except String Unit
  getAllNames : Except String (List String)
  records : Nat → String → Except String String
  domains : Nat → String → Except String String

/-! ## The fee -/

/-- Value of a list of decimal digits. -/
def digitsToNat (cs : List Char) : Nat :=
  cs.foldl (fun acc c => 10 * acc + (c.toNat - 48)) 0

/-- The library function `ethers.utils.parseEther` on unsigned decimal
literals: the amount in wei (18 decimals), or `none` where it throws. -/
def parseEther (s : String) : Option Nat :=
  let whole := s.data.takeWhile (fun c => c != '.')
  let frac := (s.data.dropWhile (fun c => c != '.')).drop 1
  if whole.isEmpty && frac.isEmpty then none
  else if !((whole ++ frac).all (fun c => 48 ≤ c.toNat && c.toNat ≤ 57)) then none
  else if 18 < frac.length then none
  else some (digitsToNat whole * 10 ^ 18 + digitsToNat frac * 10 ^ (18 - frac.length))

/-- The `price` literal chosen in `mintDomain`. -/
def mintPrice (domain : String) : String :=
  if jsLength domain = 3 then "0.5" else if jsLength domain = 4 then "0.3" else "0.1"

/-! ## `mintDomain` -/

/-- The `catch` block of `mintDomain`. -/
def mintCatch (error : String) : List Effect :=
  [.log error, .setLoading false]

/-- The effects of `mintDomain`, in order, from the state it was called in. -/
def mintDomainEffects (env : WriteEnv) (s : AppState) : List Effect :=
  if s.domain = "" then []
  else if jsLength s.domain < 3 then [.alert shortDomainNotice]
  else
    [.setLoading true, .log "Minting domain"] ++
    (if env.ethereum = false then []
     else
      match env.connect with
      | .error e => mintCatch e
      | .ok _ =>
        .log "Pop wallet to pay gas..." ::
        (match parseEther (mintPrice s.domain) with
         | none => mintCatch "invalid decimal value"
         | some value =>
           .contractRegister s.domain value ::
           (match env.register s.domain value with
            | .error e => mintCatch e
            | .ok tx =>
              match tx.wait with
              | .error e => mintCatch e
              | .ok receipt =>
                .registerReceipt receipt.status ::
                (if receipt.status = 1 then
                   .log "Domain minted successfully!" ::
                   .contractSetRecord s.domain s.record ::
                   (match env.setRecord s.domain s.record with
                    | .error e => mintCatch e
                    | .ok tx2 =>
                      match tx2.wait with
                      | .error e => mintCatch e
                      | .ok receipt2 =>
                        [.setRecordReceipt receipt2.status, .log "Record set!",
                         .scheduleFetch 1000, .setLoading false,
                         .setRecord "", .setDomain ""])
                 else
                   [.alert mintFailedNotice, .setLoading false]))))

/-- Running `mintDomain`: the state when it finishes and what it did. -/
def mintDomain (env : WriteEnv) (s : AppState) : AppState × List Effect :=
  (applyEffects s (mintDomainEffects env s), mintDomainEffects env s)

/-! ## `updateDomain` -/

/-- The effects of `updateDomain`, in order. -/
def updateDomainEffects (env : WriteEnv) (s : AppState) : List Effect :=
  if s.record = "" ∨ s.domain = "" then []
  else
    [.setLoading true, .log "Updating domain"] ++
    (if env.ethereum = false then []
     else
      match env.connect with
      | .error e => [.log e]
      | .ok _ =>
        .contractSetRecord s.domain s.record ::
        (match env.setRecord s.domain s.record with
         | .error e => [.log e]
         | .ok tx =>
           match tx.wait with
           | .error e => [.log e]
           | .ok receipt =>
             [.setRecordReceipt receipt.status, .log "Record set", .startFetch,
              .setRecord "", .setDomain "", .setEditing false])) ++
    [.setLoading false]

/-- Running `updateDomain`. -/
def updateDomain (env : WriteEnv) (s : AppState) : AppState × List Effect :=
  (applyEffects s (updateDomainEffects env s), updateDomainEffects env s)

/-! ## `fetchMints` -/

/-- The callback mapped over `names` in `fetchMints`, for the name at position
`i`: the record lookup, then the owner lookup, then the entry. -/
def lookupEntry (env : ReadEnv) (names : List String) (i : Nat) (name : String) :
    Except String MintEntry :=
  match env.records i name with
  | .error e => .error e
  | .ok mintRecord =>
    match env.domains i name with
    | .error e => .error e
    | .ok owner =>
      .ok { id := names.indexOf name, name := name, record := mintRecord, owner := owner }

/-- The outcomes of `names.map(async (name) => ...)`, positions counted from `i`. -/
def lookupFrom (env : ReadEnv) (names : List String) : Nat → List String →
    List (Except String MintEntry)
  | _, [] => []
  | i, name :: rest => lookupEntry env names i name :: lookupFrom env names (i + 1) rest

/-- The sequence `Promise.all` resolves to: every result, in order, or a
rejection when one of the promises rejects. -/
def promiseAll {α : Type} : List (Except String α) → Except String (List α)
  | [] => .ok []
  | .error e :: _ => .error e
  | .ok a :: rest =>
    match promiseAll rest with
    | .error e => .error e
    | .ok as => .ok (a :: as)

/-- The effects of `fetchMints`, in order. The individual lookups run
concurrently; only their outcomes are recorded, through `setMints`. -/
def fetchMintsEffects (env : ReadEnv) : List Effect :=
  if env.ethereum = false then []
  else
    match env.connect with
    | .error e => [.log e]
    | .ok _ =>
      .contractGetAllNames ::
      (match env.getAllNames with
       | .error e => [.log e]
       | .ok names =>
         match promiseAll (lookupFrom env names 0 names) with
         | .error e => [.log e]
         | .ok mintRecords => [.log "MINTS FETCHED ", .setMints mintRecords])

/-- Running `fetchMints`. -/
def fetchMints (env : ReadEnv) (s : AppState) : AppState × List Effect :=
  (applyEffects s (fetchMintsEffects env), fetchMintsEffects env)

/-! ## Wallet session -/

/-- The responses of an injected wallet provider. -/
structure Provider where
  /-- The response to `eth_accounts`. -/
  accounts : Except String (List String)
  /-- The response to `eth_chainId`. -/
  chainId : Except String String
  /-- The response to `wallet_switchEthereumChain` (an error carries its `code`). -/
  switchChain : Except (Option Nat) Unit
  /-- The response to `wallet_addEthereumChain`. -/
  addChain : Except (Option Nat) Unit

/-- The effects of `checkIfWalletIsConnected`. The table `networks` of
`utils/networks` is a parameter; a chain id it lacks gives `undefined`, which
is written `""` here (the component only ever compares the network name with
`requiredNetwork`). The function has no `try`: a rejected request ends it. -/
def checkIfWalletIsConnectedEffects (networks : String → Option String)
    (ethereum : Option Provider) : List Effect :=
  match ethereum with
  | none => [.log "Make sure metamask is installed"]
  | some p =>
    .log "We have the ethereum object" ::
    .walletRequest "eth_accounts" ::
    (match p.accounts with
     | .error _ => []
     | .ok accounts =>
       (match accounts with
        | account :: _ => [.log "Found an authorized account: ", .setCurrentAccount account]
        | [] => [.log "No authorized accounts found"]) ++
       .walletRequest "eth_chainId" ::
       (match p.chainId with
        | .error _ => []
        | .ok chainId => [.setNetwork ((networks chainId).getD ""), .onChainChanged]))

/-- The effects of `switchNetwork`. -/
def switchNetworkEffects (ethereum : Option Provider) : List Effect :=
  match ethereum with
  | none =>
    [.alert "MetaMask is not installed. Please install it to use this app: https://metamask.io/download.html"]
  | some p =>
    .walletRequest "wallet_switchEthereumChain" ::
    (match p.switchChain with
     | .ok _ => []
     | .error code =>
       (if code = some 4902 then
          .walletRequest "wallet_addEthereumChain" ::
          (match p.addChain with
           | .ok _ => []
           | .error _ => [.log "error"])
        else []) ++ [.log "error"])

/-- The body of the only `useEffect` of the component, which React runs after
the first render and after every render in which `currentAccount` or
`network` changed. -/
def networkEffect (s : AppState) : List Effect :=
  if s.network = requiredNetwork then [.startFetch] else []

/-- Loading the page: the component is rendered from the initial state and its
effect hook runs. Nothing else is run on load; in particular the injected
provider and the chain-id table are not consulted. -/
def initialLoad (_networks : String → Option String) (_ethereum : Option Provider) :
    AppState × List Effect :=
  (applyEffects initialState (networkEffect initialState), networkEffect initialState)

/-! ## Presentation -/

/-- The functions bound to `onClick` / `onChange` in the JSX. -/
inductive Handler where
  | connectWallet
  | switchNetwork
  | mintDomain
  | updateDomain
  /-- `(e) => setDomain(e.target.value)`. -/
  | changeDomain
  /-- `(e) => setRecord(e.target.value)`. -/
  | changeRecord
  /-- The arrow function of the "Edit Record" button of one entry. -/
  | editRecord (mint : MintEntry)
  deriving DecidableEq, Repr

/-- The visible pieces of the page, in document order. -/
inductive Element where
  | text (content : String)
  | input (placeholder : String) (value : String) (onChange : Handler)
  | button (label : String) (onClick : Option Handler)
  deriving DecidableEq, Repr

/-- The handler attached to an element, if any. -/
def Element.handler : Element → Option Handler
  | .text _ => none
  | .input _ _ h => some h
  | .button _ h => h

/-- Whether an element is a form input. -/
def Element.isInput : Element → Bool
  | .input _ _ _ => true
  | _ => false

/-- The handlers that are Registry Writer operations. (`fetchMints`, the
Registry Reader, is bound to no element.) -/
def Handler.isRegistryOperation : Handler → Bool
  | .mintDomain => true
  | .updateDomain => true
  | _ => false

/-- The `onClick` of the submit button: `editing ? updateDomain : mintDomain`. -/
def submitHandler (s : AppState) : Handler :=
  if s.editing then .updateDomain else .mintDomain

def renderConnectWalletButton : List Element :=
  [.button "Connect Wallet" (some .connectWallet)]

def renderInput (s : AppState) : List Element :=
  if s.network ≠ requiredNetwork then
    [.text "Please connect to the Trigon Blockchain",
     .button "Click here to switch" (some .switchNetwork)]
  else
    [.input "Domain name (min 3 characters)" s.domain .changeDomain,
     .input "Set record (Optional)" s.record .changeRecord,
     if s.loading then .button "Loading..." none
     else .button (if s.editing then "Update Domain" else "Mint Domain")
            (some (submitHandler s))]

/-- One `<li>` of `renderMints`. -/
def renderMint (mint : MintEntry) : List Element :=
  [.text mint.name, .text mint.record,
   .text ("Owned by: " ++ shortAddress mint.owner),
   .button "Edit Record" (some (.editRecord mint))]

def renderMints (s : AppState) : List Element :=
  .text "Your Mints" ::
  (if s.mints.length = 0 then [.text "No domains minted yet."]
   else s.mints.flatMap renderMint)

/-- The JSX returned by `App`. -/
def render (s : AppState) : List Element :=
  [.text "Trigon Domain Manager", .text "@kharioki"] ++
  (if s.currentAccount ≠ "" then
     .text ("Connected to: " ++ shortAddress s.currentAccount) ::
       (renderInput s ++ renderMints s)
   else renderConnectWalletButton)

/-- The effects of the "Edit Record" arrow function of one entry. -/
def editRecordEffects (mint : MintEntry) : List Effect :=
  [.setEditing true, .setDomain mint.name, .setRecord mint.record]

/-- Clicking "Edit Record" on an entry. -/
def editRecord (mint : MintEntry) (s : AppState) : AppState :=
  applyEffects s (editRecordEffects mint)

/-! ## Sample data -/

/-- A registry and wallet in which every request succeeds. -/
def envOk : WriteEnv :=
  { ethereum := true, connect := .ok (),
    register := fun _ _ => .ok { hash := "0x01", wait := .ok { status := 1 } },
    setRecord := fun _ _ => .ok { hash := "0x02", wait := .ok { status := 1 } } }

/-- A registry whose register transaction is mined with status 0. -/
def envReverted : WriteEnv :=
  { envOk with register := fun _ _ => .ok { hash := "0x01", wait := .ok { status := 0 } } }

/-- A registry listing the given names, every name owned by the same account
and carrying its own name as record. -/
def readEnvOf (names : List String) : ReadEnv :=
  { ethereum := true, connect := .ok (), getAllNames := .ok names,
    records := fun _ name => .ok name,
    domains := fun _ _ => .ok "0xa1c575342591f6d8fc79a26cbaddc8485ca8ee52" }

/-- A wallet with one authorized account, on chain `0x3a1`. -/
def providerOnTrigon : Provider :=
  { accounts := .ok ["0x52908400098527886e0f7030069857d2e4169ee7"],
    chainId := .ok "0x3a1", switchChain := .ok (), addChain := .ok () }

/-- A chain-id table that names chain `0x3a1` as the required network. -/
def sampleNetworks : String → Option String :=
  fun chainId => if chainId = "0x3a1" then some requiredNetwork else none

/-- A form holding the given candidate name and record. -/
def formState (domain record : String) : AppState :=
  { initialState with domain := domain, record := record }

/-- A displayed entry. -/
def sampleMint : MintEntry :=
  { id := 0, name := "alice", record := "hello",
    owner := "0x52908400098527886e0f7030069857d2e4169ee7" }

/-- A connected state off the required network. -/
def gatedState (mints : List MintEntry) : AppState :=
  { initialState with
    currentAccount := "0x52908400098527886e0f7030069857d2e4169ee7", mints := mints }

/-- A connected state on the required network, with an idle, non-editing form. -/
def readyState (mints : List MintEntry) : AppState :=
  { initialState with
    currentAccount := "0x52908400098527886e0f7030069857d2e4169ee7",
    network := requiredNetwork, mints := mints }

/-! ## Auxiliary facts -/

theorem jsLength_empty : jsLength "" = 0 := by decide

theorem domain_ne_empty_of_length (s : AppState) (h : 3 ≤ jsLength s.domain) :
    s.domain ≠ "" := by
  intro he
  rw [he, jsLength_empty] at h
  omega

theorem parseEther_mintPrice (d : String) :
    parseEther (mintPrice d) =
      some (if jsLength d = 3 then 500000000000000000
            else if jsLength d = 4 then 300000000000000000 else 100000000000000000) := by
  unfold mintPrice
  split_ifs <;> decide

/-- An element found in the longest prefix satisfying `p` lies before any
element that fails `p`. -/
theorem mem_before_of_mem_takeWhile {α : Type} (p : α → Bool) :
    ∀ (pre post : List α) (x y : α), p x = false →
      y ∈ (pre ++ x :: post).takeWhile p → y ∈ pre
  | [], post, x, y, hx, hy => by simp [List.takeWhile, hx] at hy
  | a :: pre, post, x, y, hx, hy => by
    cases hpa : p a with
    | false => simp [List.takeWhile, hpa] at hy
    | true =>
      simp only [List.cons_append, List.takeWhile, hpa, List.mem_cons] at hy
      rcases hy with h | h
      · exact h ▸ List.mem_cons_self _ _
      · exact List.mem_cons_of_mem _ (mem_before_of_mem_takeWhile p pre post x y hx h)

/-! ## `mintDomain` -/

/-- C2: for a candidate name of length below 3 (the empty one included),
`mintDomain` reaches the registry in no way (no register, no setRecord, no
fetch) and leaves the whole state as it was. -/
theorem mintDomain_short_name_noop (env : WriteEnv) (s : AppState)
    (h : jsLength s.domain < 3) :
    (∀ e ∈ (mintDomain env s).2, e.touchesRegistry = false) ∧
      (mintDomain env s).1 = s := by
  unfold mintDomain mintDomainEffects
  by_cases he : s.domain = ""
  · simp [he, applyEffects]
  · simp [he, h, applyEffects, applyEffect, Effect.touchesRegistry]

theorem mintDomain_short_name_noop_witness :
    (∀ e ∈ (mintDomain envOk { initialState with domain := "ab" }).2,
        e.touchesRegistry = false) ∧
      (mintDomain envOk { initialState with domain := "ab" }).1 =
        { initialState with domain := "ab" } :=
  mintDomain_short_name_noop envOk { initialState with domain := "ab" } (by decide)

/-- C1: once the precondition is passed, the register call carries the name
and a fee fixed by the length of the name alone: 0.5 for length 3, 0.3 for
length 4, 0.1 for every length from 5 on, and 0.5 > 0.3 > 0.1 in wei. The call
is issued as soon as the wallet and the contract object are there. -/
theorem mintDomain_fee_by_length (env : WriteEnv) (s : AppState)
    (h : 3 ≤ jsLength s.domain) :
    (∀ n v, Effect.contractRegister n v ∈ (mintDomain env s).2 →
        n = s.domain ∧ parseEther (mintPrice s.domain) = some v) ∧
    (env.ethereum = true → env.connect = .ok () →
        ∃ v, Effect.contractRegister s.domain v ∈ (mintDomain env s).2) ∧
    (jsLength s.domain = 3 →
        mintPrice s.domain = "0.5" ∧
        parseEther (mintPrice s.domain) = some 500000000000000000) ∧
    (jsLength s.domain = 4 →
        mintPrice s.domain = "0.3" ∧
        parseEther (mintPrice s.domain) = some 300000000000000000) ∧
    (5 ≤ jsLength s.domain →
        mintPrice s.domain = "0.1" ∧
        parseEther (mintPrice s.domain) = some 100000000000000000) ∧
    (∀ s2 : AppState, jsLength s2.domain = jsLength s.domain →
        mintPrice s2.domain = mintPrice s.domain) ∧
    (∃ hi mid lo, parseEther "0.5" = some hi ∧ parseEther "0.3" = some mid ∧
        parseEther "0.1" = some lo ∧ lo < mid ∧ mid < hi) := by
  have hne := domain_ne_empty_of_length s h
  have hlt : ¬ jsLength s.domain < 3 := by omega
  have hp := parseEther_mintPrice s.domain
  refine ⟨?_, ?_, ?_, ?_, ?_, ?_, ?_⟩
  · intro n v hmem
    obtain ⟨v0, hv0⟩ : ∃ v0, parseEther (mintPrice s.domain) = some v0 := ⟨_, hp⟩
    simp only [mintDomain, mintDomainEffects, hne, hlt, if_false, hv0] at hmem
    rw [hv0]
    revert hmem
    (repeat' split) <;> simp [mintCatch] <;> intro h1 h2 <;> simp [h1, h2]
  · intro hE hC
    simp only [mintDomain, mintDomainEffects, hne, hlt, if_false, hp, hE, hC]
    exact ⟨_, by simp; exact Or.inl rfl⟩
  · intro h3
    simp [mintPrice, h3]; decide
  · intro h4
    simp [mintPrice, h4]; decide
  · intro h5
    have h3 : jsLength s.domain ≠ 3 := by omega
    have h4 : jsLength s.domain ≠ 4 := by omega
    simp [mintPrice, h3, h4]; decide
  · intro s2 h2
    simp [mintPrice, h2]
  · exact ⟨500000000000000000, 300000000000000000, 100000000000000000,
      by decide, by decide, by decide, by decide, by decide⟩

theorem mintDomain_fee_by_length_witness :
    3 ≤ jsLength (formState "abc" "").domain ∧
    (∀ n v, Effect.contractRegister n v ∈ (mintDomain envOk (formState "abc" "")).2 →
        n = (formState "abc" "").domain ∧
        parseEther (mintPrice (formState "abc" "").domain) = some v) ∧
    (envOk.ethereum = true → envOk.connect = .ok () →
        ∃ v, Effect.contractRegister (formState "abc" "").domain v ∈
          (mintDomain envOk (formState "abc" "")).2) :=
  ⟨by decide, (mintDomain_fee_by_length envOk (formState "abc" "") (by decide)).1,
    (mintDomain_fee_by_length envOk (formState "abc" "") (by decide)).2.1⟩

/-- C3 as stated fails: the empty name is turned away without any notice. -/
theorem mintDomain_empty_name_silent :
    ¬ (∀ (env : WriteEnv) (s : AppState), jsLength s.domain < 3 →
        ∃ msg, Effect.alert msg ∈ (mintDomain env s).2) := by
  intro hall
  obtain ⟨msg, hmsg⟩ := hall envOk (formState "" "") (by decide)
  simp [mintDomain, mintDomainEffects, formState, initialState] at hmsg

/-- C3, amended: a non-empty name of fewer than 3 characters is rejected with
the short-name notice and nothing else happens; the empty name is rejected
with no effect at all (no notice, no network call); a name of 3 or more
characters never gets the short-name notice. -/
theorem mintDomain_precondition_notice (env : WriteEnv) (s : AppState) :
    (s.domain ≠ "" → jsLength s.domain < 3 →
        (mintDomain env s).2 = [Effect.alert shortDomainNotice]) ∧
    (s.domain = "" → (mintDomain env s).2 = []) ∧
    (3 ≤ jsLength s.domain → Effect.alert shortDomainNotice ∉ (mintDomain env s).2) := by
  refine ⟨?_, ?_, ?_⟩
  · intro hne hlt
    simp [mintDomain, mintDomainEffects, hne, hlt]
  · intro he
    simp [mintDomain, mintDomainEffects, he]
  · intro h
    have hne := domain_ne_empty_of_length s h
    have hlt : ¬ jsLength s.domain < 3 := by omega
    simp only [mintDomain, mintDomainEffects, hne, hlt, if_false]
    (repeat' split) <;> simp [mintCatch, mintFailedNotice, shortDomainNotice]

theorem mintDomain_precondition_notice_witness :
    (mintDomain envOk (formState "ab" "")).2 = [Effect.alert shortDomainNotice] ∧
    (mintDomain envOk (formState "" "")).2 = [] ∧
    Effect.alert shortDomainNotice ∉ (mintDomain envReverted (formState "abc" "")).2 :=
  ⟨(mintDomain_precondition_notice envOk (formState "ab" "")).1 (by decide) (by decide),
    (mintDomain_precondition_notice envOk (formState "" "")).2.1 (by decide),
    (mintDomain_precondition_notice envReverted (formState "abc" "")).2.2 (by decide)⟩

/-- C4: in every run of `mintDomain`, whatever the registry answers, a
`setRecord` call comes after the observation of the register receipt with
status 1; and when the receipt observed has another status, no `setRecord`
call is issued and `loading` is false at the end. -/
theorem mintDomain_setRecord_after_success (env : WriteEnv) (s : AppState) :
    (∀ pre post n r,
        (mintDomain env s).2 = pre ++ Effect.contractSetRecord n r :: post →
        Effect.registerReceipt 1 ∈ pre) ∧
    (∀ status, status ≠ 1 → Effect.registerReceipt status ∈ (mintDomain env s).2 →
        (∀ n r, Effect.contractSetRecord n r ∉ (mintDomain env s).2) ∧
        (mintDomain env s).1.loading = false) := by
  constructor
  · intro pre post n r heq
    apply mem_before_of_mem_takeWhile Effect.notSetRecordCall pre post
      (Effect.contractSetRecord n r) _ rfl
    rw [← heq]
    have hmem : Effect.contractSetRecord n r ∈ (mintDomain env s).2 := by
      rw [heq]; simp
    revert hmem
    simp only [mintDomain, mintDomainEffects]
    (repeat' split) <;>
      simp_all [mintCatch, List.takeWhile, Effect.notSetRecordCall]
  · intro status hst
    simp only [mintDomain, mintDomainEffects]
    (repeat' split) <;>
      simp_all [mintCatch, applyEffects, applyEffect]

theorem mintDomain_setRecord_after_success_witness :
    Effect.registerReceipt 1 ∈
        [Effect.setLoading true, Effect.log "Minting domain",
         Effect.log "Pop wallet to pay gas...",
         Effect.contractRegister "abc" 500000000000000000,
         Effect.registerReceipt 1, Effect.log "Domain minted successfully!"] ∧
    ((∀ n r, Effect.contractSetRecord n r ∉
        (mintDomain envReverted (formState "abc" "hello")).2) ∧
      (mintDomain envReverted (formState "abc" "hello")).1.loading = false) :=
  ⟨(mintDomain_setRecord_after_success envOk (formState "abc" "hello")).1
      [Effect.setLoading true, Effect.log "Minting domain",
       Effect.log "Pop wallet to pay gas...",
       Effect.contractRegister "abc" 500000000000000000,
       Effect.registerReceipt 1, Effect.log "Domain minted successfully!"]
      [Effect.setRecordReceipt 1, Effect.log "Record set!", Effect.scheduleFetch 1000,
       Effect.setLoading false, Effect.setRecord "", Effect.setDomain ""]
      "abc" "hello" (by decide),
    (mintDomain_setRecord_after_success envReverted (formState "abc" "hello")).2
      0 (by decide) (by decide)⟩

/-- C5: for a name of length at least 3 and any record, when the register
transaction is mined with status 1 and the set-record transaction is
submitted and mined, `mintDomain` ends with `domain = ""`, `record = ""`,
`loading = false` and every other cell (`editing`, the entry list, the
account, the network) as before; the refetch is only scheduled. -/
theorem mintDomain_success_clears_form (env : WriteEnv) (s : AppState)
    (tx tx2 : Tx) (receipt2 : Receipt)
    (hlen : 3 ≤ jsLength s.domain)
    (hE : env.ethereum = true) (hC : env.connect = .ok ())
    (hreg : ∀ v, parseEther (mintPrice s.domain) = some v →
      env.register s.domain v = .ok tx)
    (hwait : tx.wait = .ok { status := 1 })
    (hset : env.setRecord s.domain s.record = .ok tx2)
    (hwait2 : tx2.wait = .ok receipt2) :
    (mintDomain env s).1 = { s with domain := "", record := "", loading := false } ∧
    Effect.scheduleFetch 1000 ∈ (mintDomain env s).2 ∧
    (∀ ms, Effect.setMints ms ∉ (mintDomain env s).2) := by
  have hne := domain_ne_empty_of_length s hlen
  have hlt : ¬ jsLength s.domain < 3 := by omega
  have hp := parseEther_mintPrice s.domain
  have hr := hreg _ hp
  simp [mintDomain, mintDomainEffects, hne, hlt, hp, hE, hC, hr, hwait, hset, hwait2,
    applyEffects, applyEffect]

theorem mintDomain_success_clears_form_witness :
    (mintDomain envOk (formState "abcd" "")).1 =
        { formState "abcd" "" with domain := "", record := "", loading := false } ∧
    Effect.scheduleFetch 1000 ∈ (mintDomain envOk (formState "abcd" "")).2 ∧
    (∀ ms, Effect.setMints ms ∉ (mintDomain envOk (formState "abcd" "")).2) :=
  mintDomain_success_clears_form envOk (formState "abcd" "")
    { hash := "0x01", wait := .ok { status := 1 } }
    { hash := "0x02", wait := .ok { status := 1 } } { status := 1 }
    (by decide) rfl rfl (fun _ _ => rfl) rfl rfl rfl

/-! ## `updateDomain` -/

/-- C10: when the candidate record or the candidate name is empty,
`updateDomain` does nothing at all: no registry call, no state change. -/
theorem updateDomain_missing_input_noop (env : WriteEnv) (s : AppState)
    (h : s.record = "" ∨ s.domain = "") :
    (updateDomain env s).2 = [] ∧ (updateDomain env s).1 = s := by
  simp [updateDomain, updateDomainEffects, h, applyEffects]

theorem updateDomain_missing_input_noop_witness :
    (updateDomain envOk (formState "alice" "")).2 = [] ∧
      (updateDomain envOk (formState "alice" "")).1 = formState "alice" "" :=
  updateDomain_missing_input_noop envOk (formState "alice" "") (Or.inl rfl)

/-! ## `fetchMints` -/

theorem promiseAll_lookupFrom (env : ReadEnv) (names : List String)
    (recordOf ownerOf : Nat → String) :
    ∀ (l : List String) (k : Nat),
      (∀ j (h : j < l.length), env.records (k + j) l[j] = .ok (recordOf (k + j)) ∧
          env.domains (k + j) l[j] = .ok (ownerOf (k + j))) →
      ∃ out, promiseAll (lookupFrom env names k l) = .ok out ∧
        out.length = l.length ∧
        ∀ j (h : j < l.length), out[j]? =
          some { id := names.indexOf l[j], name := l[j],
                 record := recordOf (k + j), owner := ownerOf (k + j) }
  | [], k, _ => ⟨[], rfl, rfl, fun j h => absurd h (by simp)⟩
  | name :: rest, k, hall => by
    have h0 := hall 0 (by simp)
    simp only [Nat.add_zero, List.getElem_cons_zero] at h0
    obtain ⟨out, hout, hlen, hget⟩ := promiseAll_lookupFrom env names recordOf ownerOf rest (k + 1)
      (fun j h => by
        have := hall (j + 1) (by simpa using h)
        simpa [Nat.add_assoc, Nat.add_comm 1 j] using this)
    refine ⟨{ id := names.indexOf name, name := name, record := recordOf k,
              owner := ownerOf k } :: out, ?_, by simp [hlen], ?_⟩
    · simp [lookupFrom, lookupEntry, h0.1, h0.2, promiseAll, hout]
    · intro j h
      cases j with
      | zero => simp
      | succ j =>
        have := hget j (by simpa using h)
        simpa [Nat.add_assoc, Nat.add_comm 1 j] using this

/-- The entries published by a successful `fetchMints`, for any fetched
sequence: the id of an entry is what `names.indexOf` gives for its name. -/
theorem fetchMints_entries (env : ReadEnv)
    (names : List String) (recordOf ownerOf : Nat → String)
    (hE : env.ethereum = true) (hC : env.connect = .ok ())
    (hN : env.getAllNames = .ok names)
    (hR : ∀ i (h : i < names.length), env.records i names[i] = .ok (recordOf i))
    (hD : ∀ i (h : i < names.length), env.domains i names[i] = .ok (ownerOf i)) :
    ∃ out, (∀ s, (fetchMints env s).1 = { s with mints := out }) ∧
      (∀ s, Effect.setMints out ∈ (fetchMints env s).2) ∧
      out.length = names.length ∧
      ∀ i (h : i < names.length), out[i]? =
        some { id := names.indexOf names[i], name := names[i],
               record := recordOf i, owner := ownerOf i } := by
  obtain ⟨out, hout, hlen, hget⟩ :=
    promiseAll_lookupFrom env names recordOf ownerOf names 0
      (fun j h => by simpa using ⟨hR j h, hD j h⟩)
  refine ⟨out, ?_, ?_, hlen, ?_⟩
  · intro s
    simp [fetchMints, fetchMintsEffects, hE, hC, hN, hout, applyEffects, applyEffect]
  · intro s
    simp [fetchMints, fetchMintsEffects, hE, hC, hN, hout]
  · intro i h
    simpa using hget i h

/-- C6: for every name sequence fetched from the registry (which lists each
registered name once, so the names are pairwise distinct), a successful
`fetchMints` publishes a sequence of the same length and order whose i-th
entry carries the i-th fetched name, the record and the owner looked up for
it, and id equal to its position i; the published sequence replaces the
prior one: no other cell changes and the prior entries play no part. -/
theorem fetchMints_publishes_entries (env : ReadEnv) (s : AppState)
    (names : List String) (recordOf ownerOf : Nat → String)
    (hnd : names.Nodup)
    (hE : env.ethereum = true) (hC : env.connect = .ok ())
    (hN : env.getAllNames = .ok names)
    (hR : ∀ i (h : i < names.length), env.records i names[i] = .ok (recordOf i))
    (hD : ∀ i (h : i < names.length), env.domains i names[i] = .ok (ownerOf i)) :
    (fetchMints env s).1 = { s with mints := (fetchMints env s).1.mints } ∧
    Effect.setMints (fetchMints env s).1.mints ∈ (fetchMints env s).2 ∧
    (fetchMints env s).1.mints.length = names.length ∧
    (∀ i (h : i < names.length), (fetchMints env s).1.mints[i]? =
        some { id := i, name := names[i], record := recordOf i, owner := ownerOf i }) ∧
    (∀ prior : List MintEntry,
        (fetchMints env { s with mints := prior }).1.mints = (fetchMints env s).1.mints) := by
  obtain ⟨out, hm, hset, hlen, hget⟩ :=
    fetchMints_entries env names recordOf ownerOf hE hC hN hR hD
  refine ⟨?_, ?_, ?_, ?_, ?_⟩
  · rw [hm]
  · rw [hm]; exact hset s
  · rw [hm]; exact hlen
  · intro i h
    have := hget i h
    rw [List.indexOf_getElem hnd i h] at this
    rw [hm]; exact this
  · intro prior
    rw [hm, hm]

theorem fetchMints_publishes_entries_witness :
    (fetchMints (readEnvOf ["alice", "bob"]) (gatedState [sampleMint])).1.mints.length =
      ["alice", "bob"].length ∧
    (∀ i (h : i < ["alice", "bob"].length),
      (fetchMints (readEnvOf ["alice", "bob"]) (gatedState [sampleMint])).1.mints[i]? =
        some { id := i, name := ["alice", "bob"][i], record := ["alice", "bob"].getD i "",
               owner := "0xa1c575342591f6d8fc79a26cbaddc8485ca8ee52" }) :=
  by
  have key := fetchMints_publishes_entries (readEnvOf ["alice", "bob"])
    (gatedState [sampleMint]) ["alice", "bob"] (fun i => ["alice", "bob"].getD i "")
    (fun _ => "0xa1c575342591f6d8fc79a26cbaddc8485ca8ee52") (by decide) rfl rfl rfl
    (fun i h => match i, h with
      | 0, _ => rfl
      | 1, _ => rfl
      | i + 2, h => absurd h (by simp))
    (fun _ _ => rfl)
  exact ⟨key.2.2.1, key.2.2.2.1⟩

/-! ## Wallet session -/

/-- C7, evaluated on a wallet that has an authorized account and sits on chain
`0x3a1`, with a table naming that chain as the required network: loading the
page performs no effect and leaves `currentAccount` and `network` empty, so
the network gate stays unsatisfied, although `checkIfWalletIsConnected`, had
it been run, would have set both. -/
theorem initialLoad_skips_session_check :
    (initialLoad sampleNetworks (some providerOnTrigon)).2 = [] ∧
    (initialLoad sampleNetworks (some providerOnTrigon)).1.currentAccount = "" ∧
    (initialLoad sampleNetworks (some providerOnTrigon)).1.network = "" ∧
    (initialLoad sampleNetworks (some providerOnTrigon)).1.network ≠ requiredNetwork ∧
    (applyEffects initialState
        (checkIfWalletIsConnectedEffects sampleNetworks (some providerOnTrigon))).currentAccount
      = "0x52908400098527886e0f7030069857d2e4169ee7" ∧
    (applyEffects initialState
        (checkIfWalletIsConnectedEffects sampleNetworks (some providerOnTrigon))).network
      = requiredNetwork := by
  refine ⟨?_, ?_, ?_, ?_, ?_, ?_⟩ <;> decide

/-! ## Presentation -/

/-- C8 as stated fails: connected and off the required network, the page still
shows the entry-list section, with an edit control for each entry. -/
theorem gated_render_shows_entry_list :
    (gatedState []).currentAccount ≠ "" ∧ (gatedState []).network ≠ requiredNetwork ∧
    Element.text "Your Mints" ∈ render (gatedState []) ∧
    Element.text "No domains minted yet." ∈ render (gatedState []) ∧
    (gatedState [sampleMint]).currentAccount ≠ "" ∧
    (gatedState [sampleMint]).network ≠ requiredNetwork ∧
    Element.button "Edit Record" (some (.editRecord sampleMint)) ∈
      render (gatedState [sampleMint]) := by
  refine ⟨?_, ?_, ?_, ?_, ?_, ?_, ?_⟩ <;> decide

theorem mem_renderMints_handler (s : AppState) (el : Element) (h : Handler)
    (hel : el ∈ renderMints s) (hh : el.handler = some h) :
    ∃ mint ∈ s.mints, h = .editRecord mint ∧ el = .button "Edit Record" (some h) := by
  simp only [renderMints, List.mem_cons] at hel
  rcases hel with rfl | hel
  · simp [Element.handler] at hh
  · split at hel
    · simp only [List.mem_singleton] at hel
      subst hel
      simp [Element.handler] at hh
    · simp only [List.mem_flatMap] at hel
      obtain ⟨mint, hm, hin⟩ := hel
      simp only [renderMint, List.mem_cons, List.mem_singleton, List.not_mem_nil,
        or_false] at hin
      rcases hin with rfl | rfl | rfl | rfl
      · simp [Element.handler] at hh
      · simp [Element.handler] at hh
      · simp [Element.handler] at hh
      · simp only [Element.handler, Option.some.injEq] at hh
        exact ⟨mint, hm, hh.symm, by rw [hh]⟩

/-- C8, amended: connected and off the required network, the page shows the
title, the address summary, the switch-network affordance and the entry-list
section (its heading, then the empty notice or every entry with its edit
control); it shows no input field, and the only handlers it binds are
`switchNetwork` and the edit handlers of the listed entries, none of which is
a Registry Reader or Writer operation and none of which reaches the registry. -/
theorem gated_render (s : AppState) (ethereum : Option Provider)
    (hacc : s.currentAccount ≠ "") (hnet : s.network ≠ requiredNetwork) :
    render s =
      [.text "Trigon Domain Manager", .text "@kharioki",
       .text ("Connected to: " ++ shortAddress s.currentAccount),
       .text "Please connect to the Trigon Blockchain",
       .button "Click here to switch" (some .switchNetwork)] ++ renderMints s ∧
    (∀ el ∈ render s, el.isInput = false) ∧
    (∀ el ∈ render s, ∀ h, el.handler = some h →
        h.isRegistryOperation = false ∧
        (h = .switchNetwork ∨ ∃ mint ∈ s.mints, h = .editRecord mint)) ∧
    (∀ e ∈ switchNetworkEffects ethereum, e.touchesRegistry = false) ∧
    (∀ mint ∈ s.mints, ∀ e ∈ editRecordEffects mint, e.touchesRegistry = false) := by
  have hr : render s =
      [.text "Trigon Domain Manager", .text "@kharioki",
       .text ("Connected to: " ++ shortAddress s.currentAccount),
       .text "Please connect to the Trigon Blockchain",
       .button "Click here to switch" (some .switchNetwork)] ++ renderMints s := by
    simp [render, renderInput, hacc, hnet]
  have hh : ∀ el ∈ render s, ∀ h, el.handler = some h →
      h = .switchNetwork ∨ ∃ mint ∈ s.mints, h = .editRecord mint := by
    intro el hel h hh
    rw [hr] at hel
    simp only [List.cons_append, List.nil_append, List.mem_cons] at hel
    rcases hel with rfl | rfl | rfl | rfl | rfl | hel
    · simp [Element.handler] at hh
    · simp [Element.handler] at hh
    · simp [Element.handler] at hh
    · simp [Element.handler] at hh
    · simp only [Element.handler, Option.some.injEq] at hh
      exact Or.inl hh.symm
    · obtain ⟨mint, hm, hmh, _⟩ := mem_renderMints_handler s el h hel hh
      exact Or.inr ⟨mint, hm, hmh⟩
  refine ⟨hr, ?_, ?_, ?_, ?_⟩
  · intro el hel
    cases hel' : el with
    | text _ => rfl
    | button _ _ => rfl
    | input p v h =>
      have := hh el hel h (by rw [hel']; rfl)
      rw [hr, hel'] at hel
      simp only [List.cons_append, List.nil_append, List.mem_cons] at hel
      rcases hel with hel | hel | hel | hel | hel | hel
      · cases hel
      · cases hel
      · cases hel
      · cases hel
      · cases hel
      · obtain ⟨_, _, _, hb⟩ := mem_renderMints_handler s _ h hel rfl
        cases hb
  · intro el hel h hhe
    rcases hh el hel h hhe with rfl | ⟨mint, hm, rfl⟩
    · exact ⟨rfl, Or.inl rfl⟩
    · exact ⟨rfl, Or.inr ⟨mint, hm, rfl⟩⟩
  · intro e he
    unfold switchNetworkEffects at he
    revert he
    (repeat' split) <;> simp <;> (try rintro (rfl | rfl | rfl)) <;>
      simp_all [Effect.touchesRegistry]
  · intro mint _ e he
    simp only [editRecordEffects, List.mem_cons, List.mem_singleton, List.not_mem_nil,
      or_false] at he
    rcases he with rfl | rfl | rfl <;> rfl

theorem gated_render_witness :
    (∀ el ∈ render (gatedState [sampleMint]), el.isInput = false) ∧
    (∀ el ∈ render (gatedState [sampleMint]), ∀ h, el.handler = some h →
        h.isRegistryOperation = false ∧
        (h = .switchNetwork ∨ ∃ mint ∈ (gatedState [sampleMint]).mints, h = .editRecord mint)) :=
  ⟨(gated_render (gatedState [sampleMint]) (some providerOnTrigon)
      (by decide) (by decide)).2.1,
   (gated_render (gatedState [sampleMint]) (some providerOnTrigon)
      (by decide) (by decide)).2.2.1⟩

/-- C9: for every state and every entry it displays, the page carries an edit
control for that entry, and selecting it gives a state with `editing = true`,
`domain` the name of the entry and `record` its record, whose submit action is
`updateDomain` and not `mintDomain`: wherever the page shows the form with an
enabled submit button, that button is bound to `updateDomain` (it was bound to
`mintDomain` before, when the form was not editing), and the two inputs hold
the name and record of the entry. The entry list, `loading`, the account and
the network are as before, and the registry is not reached. -/
theorem editRecord_prefills_form (s : AppState) (mint : MintEntry)
    (hacc : s.currentAccount ≠ "") (hm : mint ∈ s.mints) :
    Element.button "Edit Record" (some (.editRecord mint)) ∈ render s ∧
    (editRecord mint s).editing = true ∧
    (editRecord mint s).domain = mint.name ∧
    (editRecord mint s).record = mint.record ∧
    submitHandler (editRecord mint s) = .updateDomain ∧
    (∀ el ∈ renderInput (editRecord mint s), el.handler ≠ some .mintDomain) ∧
    (editRecord mint s).mints = s.mints ∧
    (editRecord mint s).loading = s.loading ∧
    (editRecord mint s).currentAccount = s.currentAccount ∧
    (editRecord mint s).network = s.network ∧
    (∀ e ∈ editRecordEffects mint, e.touchesRegistry = false) ∧
    (s.network = requiredNetwork → s.loading = false →
        renderInput (editRecord mint s) =
          [.input "Domain name (min 3 characters)" mint.name .changeDomain,
           .input "Set record (Optional)" mint.record .changeRecord,
           .button "Update Domain" (some .updateDomain)] ∧
        Element.button "Update Domain" (some .updateDomain) ∈ render (editRecord mint s) ∧
        (∀ el ∈ render (editRecord mint s), el.handler ≠ some .mintDomain)) ∧
    (s.network = requiredNetwork → s.loading = false → s.editing = false →
        Element.button "Mint Domain" (some .mintDomain) ∈ render s) ∧
    (∀ el ∈ render (editRecord mint s), ∀ label h, el = .button label (some h) →
        h.isRegistryOperation = true → h = .updateDomain ∧ label = "Update Domain") := by
  have hs : editRecord mint s =
      { s with editing := true, domain := mint.name, record := mint.record } := by
    simp [editRecord, editRecordEffects, applyEffects, applyEffect]
  have hlen : s.mints.length ≠ 0 := by
    intro h0
    rw [List.length_eq_zero] at h0
    rw [h0] at hm
    exact List.not_mem_nil _ hm
  have hnoMint : ∀ el ∈ renderInput (editRecord mint s), el.handler ≠ some .mintDomain := by
    intro el hel
    rw [hs] at hel
    simp only [renderInput] at hel
    split at hel
    · simp only [List.mem_cons, List.mem_singleton, List.not_mem_nil, or_false] at hel
      rcases hel with rfl | rfl <;> simp [Element.handler]
    · simp only [List.mem_cons, List.mem_singleton, List.not_mem_nil, or_false] at hel
      rcases hel with rfl | rfl | rfl
      · simp [Element.handler]
      · simp [Element.handler]
      · split <;> simp [Element.handler, submitHandler]
  have hacc2 : (editRecord mint s).currentAccount ≠ "" := by rw [hs]; exact hacc
  have hrender : ∀ el ∈ render (editRecord mint s), el.handler ≠ some .mintDomain := by
    intro el hel
    simp only [render, hacc2, ne_eq, not_false_eq_true, if_true, List.mem_append,
      List.mem_cons, List.mem_singleton, List.not_mem_nil, or_false] at hel
    rcases hel with (rfl | rfl) | rfl | hel | hel
    · simp [Element.handler]
    · simp [Element.handler]
    · simp [Element.handler]
    · exact hnoMint el hel
    · intro hh
      obtain ⟨_, _, hed, _⟩ := mem_renderMints_handler _ el _ hel hh
      cases hed
  refine ⟨?_, ?_, ?_, ?_, ?_, hnoMint, ?_, ?_, ?_, ?_, ?_, ?_, ?_, ?_⟩
  · simp only [render, hacc, ne_eq, not_false_eq_true, if_true, List.mem_append,
      List.mem_cons, renderMints, hlen, if_false, List.mem_flatMap]
    refine Or.inr (Or.inr (Or.inr (Or.inr ⟨mint, hm, ?_⟩)))
    simp [renderMint]
  · rw [hs]
  · rw [hs]
  · rw [hs]
  · rw [hs]; rfl
  · rw [hs]
  · rw [hs]
  · rw [hs]
  · rw [hs]
  · intro e he
    simp only [editRecordEffects, List.mem_cons, List.mem_singleton, List.not_mem_nil,
      or_false] at he
    rcases he with rfl | rfl | rfl <;> rfl
  · intro hnet hload
    have hin : renderInput (editRecord mint s) =
        [.input "Domain name (min 3 characters)" mint.name .changeDomain,
         .input "Set record (Optional)" mint.record .changeRecord,
         .button "Update Domain" (some .updateDomain)] := by
      rw [hs]
      simp [renderInput, hnet, hload, submitHandler]
    refine ⟨hin, ?_, hrender⟩
    simp only [render, hacc2, ne_eq, not_false_eq_true, if_true, hin]
    simp
  · intro hnet hload hedit
    simp [render, hacc, renderInput, hnet, hload, hedit, submitHandler]
  · intro el hel label h hbtn hreg
    have hne := hrender el hel
    subst hbtn
    simp only [Element.handler, ne_eq, Option.some.injEq] at hne
    have hupd : h = .updateDomain := by
      cases h <;> simp_all [Handler.isRegistryOperation]
    subst hupd
    refine ⟨rfl, ?_⟩
    simp only [render, hacc2, ne_eq, not_false_eq_true, if_true, List.mem_append,
      List.mem_cons, List.mem_singleton, List.not_mem_nil, or_false] at hel
    rcases hel with (hel | hel) | hel | hel | hel
    · cases hel
    · cases hel
    · cases hel
    · rw [hs] at hel
      simp only [renderInput] at hel
      split at hel
      · simp at hel
      · simp only [List.mem_cons, List.mem_singleton, List.not_mem_nil, or_false] at hel
        rcases hel with hel | hel | hel
        · cases hel
        · cases hel
        · revert hel
          split
          · intro hel; cases hel
          · intro hel
            simp only [Element.button.injEq, if_true] at hel
            exact hel.1
    · obtain ⟨_, _, hed, _⟩ := mem_renderMints_handler _ _ _ hel rfl
      cases hed

theorem editRecord_prefills_form_witness :
    Element.button "Edit Record" (some (.editRecord sampleMint)) ∈
        render (readyState [sampleMint]) ∧
    (editRecord sampleMint (readyState [sampleMint])).editing = true ∧
    (editRecord sampleMint (readyState [sampleMint])).domain = sampleMint.name ∧
    (editRecord sampleMint (readyState [sampleMint])).record = sampleMint.record ∧
    Element.button "Update Domain" (some .updateDomain) ∈
        render (editRecord sampleMint (readyState [sampleMint])) ∧
    Element.button "Mint Domain" (some .mintDomain) ∈ render (readyState [sampleMint]) :=
  by
  have key := editRecord_prefills_form (readyState [sampleMint]) sampleMint
    (by decide) (by decide)
  exact ⟨key.1, key.2.1, key.2.2.1, key.2.2.2.1,
    (key.2.2.2.2.2.2.2.2.2.2.2.1 (by decide) (by decide)).2.1,
    key.2.2.2.2.2.2.2.2.2.2.2.2.1 (by decide) (by decide) (by decide)⟩

end KotDomain
